import Mathlib

/-!
Shallow embedding of `src/data/preprocessing.py` (class `DataPreprocessor`)
from the `previsao-precos-carros` repository, together with proofs about the
claims of its specification.

Modelling conventions:
* A pandas `DataFrame` is a row-label list (`index`) plus a list of named,
  dtype-homogeneous columns.  Numeric (`float64`/`int64`) columns are
  `List (Option ℚ)` (`none` = `NaN`); `object` columns in this module hold
  strings, `List (Option String)` (`none` = `NaN`).  Machine floats are
  idealised as rationals.
* Python exceptions are `Option`: a function that can raise returns `none`
  on the raising inputs.
* All functions are pure, as the Python source never mutates its inputs
  (it always works on `df.copy()`); determinism and non-mutation claims are
  therefore captured by the embedding itself.
-/

attribute [local semireducible] Rat.add Rat.sub Rat.mul Rat.inv

namespace CarPrice

/-- A single column's cells: numeric (`float64`, `NaN` as `none`) or
`object` (strings, `NaN` as `none`). -/
inductive ColData where
  | nums (xs : List (Option ℚ))
  | strs (xs : List (Option String))
deriving DecidableEq, Repr

/-- Number of cells in the column. -/
def ColData.length : ColData → ℕ
  | .nums xs => xs.length
  | .strs xs => xs.length

/-- A named column of a data frame. -/
structure Column where
  name : String
  data : ColData
deriving DecidableEq, Repr

/-- A pandas data frame: row labels plus named columns. -/
structure DataFrame where
  index : List ℤ
  cols : List Column
deriving DecidableEq, Repr

/-- Column names, in frame order. -/
def DataFrame.colNames (df : DataFrame) : List String :=
  df.cols.map (fun c => c.name)

/-- Row count of a frame (`len(df)` = length of its index). -/
def DataFrame.numRows (df : DataFrame) : ℕ :=
  df.index.length

/-- Well-formedness: every column has exactly one cell per row label. -/
def DataFrame.WF (df : DataFrame) : Prop :=
  ∀ c ∈ df.cols, c.data.length = df.index.length

/-- `df[nm]`: first column named `nm`, `none` if absent (pandas `KeyError`). -/
def DataFrame.getCol? (df : DataFrame) (nm : String) : Option Column :=
  df.cols.find? (fun c => c.name = nm)

/-- `df[nm] = data`: replace the column named `nm` in place, or append a new
column at the right end if no such column exists (pandas assignment). -/
def DataFrame.setCol (df : DataFrame) (nm : String) (d : ColData) : DataFrame :=
  if df.cols.any (fun c => c.name = nm) then
    ⟨df.index, df.cols.map (fun c => if c.name = nm then ⟨nm, d⟩ else c)⟩
  else
    ⟨df.index, df.cols ++ [⟨nm, d⟩]⟩

/-- `df.drop(columns=nms)` once all the names are known to be present. -/
def DataFrame.dropCols (df : DataFrame) (nms : List String) : DataFrame :=
  ⟨df.index, df.cols.filter (fun c => ¬ nms.contains c.name)⟩

/-- Keep the entries of `xs` whose mask bit is `true` (pandas boolean
indexing, which keeps the original row labels of the surviving rows). -/
def maskFilter {α : Type} (mask : List Bool) (xs : List α) : List α :=
  (mask.zip xs).filterMap (fun p => if p.1 then some p.2 else none)

/-- Boolean row filtering of one column. -/
def ColData.maskFilter (mask : List Bool) : ColData → ColData
  | .nums xs => .nums (CarPrice.maskFilter mask xs)
  | .strs xs => .strs (CarPrice.maskFilter mask xs)

/-- Boolean row filtering of a whole frame (`df[mask]`). -/
def DataFrame.filterRows (df : DataFrame) (mask : List Bool) : DataFrame :=
  ⟨CarPrice.maskFilter mask df.index,
   df.cols.map (fun c => ⟨c.name, c.data.maskFilter mask⟩)⟩

/-- `df.reset_index(drop=True)`: fresh positional row labels `0..n-1`. -/
def DataFrame.resetIndex (df : DataFrame) : DataFrame :=
  ⟨(List.range df.numRows).map Int.ofNat, df.cols⟩

/-- `true` iff some cell of the column is missing (`NaN`). -/
def ColData.hasMissing : ColData → Bool
  | .nums xs => xs.any (fun o => o.isNone)
  | .strs xs => xs.any (fun o => o.isNone)

/-- `df.isnull().values.any()`: some cell of the frame is missing. -/
def DataFrame.hasMissing (df : DataFrame) : Bool :=
  df.cols.any (fun c => c.data.hasMissing)

/-! ### Generic numeric helpers -/

/-- Arithmetic mean, `sum/len` (`0` for the empty list, as `x/0 = 0` in `ℚ`;
the empty case is unreachable at every call site that models the source). -/
def meanQ (xs : List ℚ) : ℚ :=
  xs.sum / xs.length

/-- Python/numpy round-half-to-even, used by pandas `Series.round()`. -/
def roundHalfEven (q : ℚ) : ℤ :=
  let f := ⌊q⌋
  let r := q - f
  if r < 1 / 2 then f
  else if 1 / 2 < r then f + 1
  else if f.emod 2 = 0 then f else f + 1

/-- Insert into a `le`-sorted list, keeping earlier elements first on ties
(stable, like `numpy.argsort` with a stable kind). -/
def insertSorted {α : Type} (le : α → α → Bool) (a : α) : List α → List α
  | [] => [a]
  | b :: t => if le b a then b :: insertSorted le a t else a :: b :: t

/-- Stable insertion sort. -/
def sortBy {α : Type} (le : α → α → Bool) (xs : List α) : List α :=
  xs.foldr (insertSorted le) []

/-! ### Temporary categorical coding used by `knn_impute`
`df[col].astype('category')` enumerates the distinct observed (non-`NaN`)
strings in sorted order; `.cat.codes` maps each cell to its position in that
enumeration and `NaN` to `-1`; the inverse map is
`dict(enumerate(categories))`, under which `-1` (and any out-of-range code)
has no key and yields `NaN`. -/

/-- Lexicographic code-point order on character lists (the order Python
uses to compare strings). -/
def charsLe : List Char → List Char → Bool
  | [], _ => true
  | _ :: _, [] => false
  | a :: as, b :: bs =>
    if a.toNat < b.toNat then true
    else if b.toNat < a.toNat then false
    else charsLe as bs

/-- Lexicographic code-point order on strings. -/
def strLe (a b : String) : Bool :=
  charsLe a.data b.data

/-- The categories of `astype('category')`: sorted distinct observed values. -/
def catCategories (xs : List (Option String)) : List String :=
  sortBy strLe (xs.filterMap id).dedup

/-- `.cat.codes` of one cell: position among the categories, `NaN ↦ -1`. -/
def catCode (cats : List String) : Option String → ℤ
  | none => -1
  | some s => if s ∈ cats then (cats.indexOf s : ℤ) else -1

/-- `round().astype(int).map(dict(enumerate(cats)))` of one imputed cell:
codes outside `0..len(cats)-1` have no key in the dict and give `NaN`. -/
def catDecode (cats : List String) (q : ℚ) : Option String :=
  let c := roundHalfEven q
  if c < 0 then none else cats[c.toNat]?

/-! ### `KNNImputer` core (scikit-learn, `weights='uniform'`,
`metric='nan_euclidean'`).  The matrix is column-major; only originally
numeric columns can actually contain `none`, since `.cat.codes` is total. -/

/-- Row `i` of a column-major matrix. -/
def rowAt (mat : List (List (Option ℚ))) (i : ℕ) : List (Option ℚ) :=
  mat.map (fun col => col.getD i none)

/-- Squared `nan_euclidean` distance: `p/m * Σ (xⱼ-yⱼ)²` over the `m`
coordinates present in both rows (`p` = total feature count); `none` when no
coordinate is shared (such a pair is excluded from the neighbor search). -/
def nanDistSq (p : ℕ) (x y : List (Option ℚ)) : Option ℚ :=
  let ds := (x.zip y).filterMap (fun pr =>
    match pr with
    | (some a, some b) => some ((a - b) ^ 2)
    | _ => none)
  if ds.isEmpty then none else some ((p : ℚ) / (ds.length : ℚ) * ds.sum)

/-- Neighbor ordering: by distance, ties by row position (stable argsort). -/
def candLe (a b : ℚ × ℕ × ℚ) : Bool :=
  decide (a.1 < b.1 ∨ (a.1 = b.1 ∧ a.2.1 ≤ b.2.1))

/-- Value imputed for the missing cell at row `i` of column `c`: the uniform
mean of the column values of the (at most) `k` nearest donor rows — rows
other than `i` with the feature observed and a defined distance to row `i` —
falling back to the column mean of the observed values when no donor
qualifies. -/
def fillValue (mat : List (List (Option ℚ))) (k : ℕ)
    (c : List (Option ℚ)) (i : ℕ) : ℚ :=
  let p := mat.length
  let cands := c.enum.filterMap (fun pr =>
    if pr.1 = i then none
    else match pr.2 with
      | none => none
      | some v => (nanDistSq p (rowAt mat i) (rowAt mat pr.1)).map
          (fun d => (d, pr.1, v)))
  if cands.isEmpty then meanQ (c.filterMap id)
  else meanQ (((sortBy candLe cands).take k).map (fun t => t.2.2))

/-- Impute one column: observed cells are returned unchanged (the imputer
only writes to missing entries), missing cells get `fillValue`. -/
def imputeColumn (mat : List (List (Option ℚ))) (k : ℕ)
    (c : List (Option ℚ)) : List ℚ :=
  c.enum.map (fun pr => pr.2.getD (fillValue mat k c pr.1))

/-- The temporary all-numeric view of a column fed to the imputer: numeric
columns as-is, `object` columns replaced by their category codes. -/
def knnEncodeCol : ColData → List (Option ℚ)
  | .nums xs => xs
  | .strs xs =>
    let cats := catCategories xs
    xs.map (fun o => some ((catCode cats o : ℤ) : ℚ))

/-- `DataPreprocessor.knn_impute`.  Raising inputs (`none`):
`n_neighbors = 0` (rejected by scikit-learn's parameter check), an empty
frame (0 rows or 0 features is a `fit` error), and a fully-missing numeric
column (dropped by `KNNImputer.fit_transform`, after which the
`pd.DataFrame(..., columns=df_encoded.columns)` constructor fails on the
shape mismatch).  The output frame has a fresh positional index, the input's
column names in order, numeric columns holding the imputed floats and
`object` columns mapped back through the category enumeration of the
original input column. -/
def knn_impute (df : DataFrame) (n_neighbors : ℕ) : Option DataFrame :=
  let n := df.index.length
  let mat := df.cols.map (fun c => knnEncodeCol c.data)
  if n_neighbors = 0 ∨ n = 0 ∨ df.cols.isEmpty
      ∨ mat.any (fun c => c.all (fun o => o.isNone)) then
    none
  else
    let imputed := mat.map (fun c => imputeColumn mat n_neighbors c)
    let outCols := (df.cols.zip imputed).map (fun pr =>
      match pr.1.data with
      | .nums _ => Column.mk pr.1.name (.nums (pr.2.map some))
      | .strs xs =>
          Column.mk pr.1.name
            (.strs (pr.2.map (catDecode (catCategories xs)))))
    some ⟨(List.range n).map Int.ofNat, outCols⟩

/-! ### `remove_outliers_iqr` -/

/-- `Series.quantile(q)` with the default linear interpolation, over the
observed values `xs` (pandas drops `NaN` before taking quantiles): at
position `q*(n-1)` in the sorted data, interpolating between the two
adjacent order statistics. -/
def quantileLinear (xs : List ℚ) (q : ℚ) : ℚ :=
  let s := sortBy (fun a b => a ≤ b) xs
  let pos := q * ((s.length : ℚ) - 1)
  let i := (⌊pos⌋).toNat
  let lo := s.getD i 0
  let hi := s.getD (i + 1) lo
  lo + (pos - (⌊pos⌋ : ℚ)) * (hi - lo)

/-- The in-bounds mask of `remove_outliers_iqr`: `true` exactly on cells with
`lower ≤ v ∧ v ≤ upper` (`NaN ≥ lower` is `False` in pandas, so missing
cells are dropped). -/
def iqrMask (lower upper : ℚ) (xs : List (Option ℚ)) : List Bool :=
  xs.map (fun o =>
    match o with
    | some v => decide (lower ≤ v ∧ v ≤ upper)
    | none => false)

/-- `DataPreprocessor.remove_outliers_iqr`.  `none` when the column is
absent (`KeyError`) or is an `object` column (`quantile` raises a
`TypeError` on strings).  When the column has no observed value both
quantiles are `NaN`, every comparison is `False` and the result is the empty
subframe, which the all-`false` mask produces. -/
def remove_outliers_iqr (df : DataFrame) (column : String) : Option DataFrame :=
  (df.getCol? column).bind (fun c =>
    match c.data with
    | .strs _ => none
    | .nums xs =>
      let obs := xs.filterMap id
      if obs.isEmpty then some (df.filterRows (xs.map (fun _ => false)))
      else
        let Q1 := quantileLinear obs (1 / 4)
        let Q3 := quantileLinear obs (3 / 4)
        let IQR := Q3 - Q1
        let lower := Q1 - 3 / 2 * IQR
        let upper := Q3 + 3 / 2 * IQR
        some (df.filterRows (iqrMask lower upper xs)))

/-! ### `create_features` -/

/-- Element-wise product of two cells; `NaN` propagates. -/
def optMul (a b : Option ℚ) : Option ℚ :=
  a.bind (fun x => b.map (fun y => x * y))

/-- Element-wise product of two columns; a string column in a numeric
product is a `TypeError`. -/
def colMul : ColData → ColData → Option ColData
  | .nums xs, .nums ys => some (.nums (List.zipWith optMul xs ys))
  | _, _ => none

/-- `k - column` element-wise (used as `2024 - df['model_year']`); `NaN`
propagates and a string column is a `TypeError`. -/
def colRSub (k : ℚ) : ColData → Option ColData
  | .nums xs => some (.nums (xs.map (Option.map (fun v => k - v))))
  | .strs _ => none

/-- `DataPreprocessor.create_features`, following the source statement by
statement: assign `engine_transmission`, assign `int_ext_color`, drop the
four product sources, assign `car_age`, drop `model_year`.  Any missing
column (`KeyError`) or non-numeric operand (`TypeError`) gives `none`. -/
def create_features (df : DataFrame) : Option DataFrame :=
  (df.getCol? "engine").bind (fun ce =>
  (df.getCol? "transmission").bind (fun ct =>
  (colMul ce.data ct.data).bind (fun met =>
  let d1 := df.setCol "engine_transmission" met
  (d1.getCol? "int_col").bind (fun ci =>
  (d1.getCol? "ext_col").bind (fun cx =>
  (colMul ci.data cx.data).bind (fun mie =>
  let d2 := d1.setCol "int_ext_color" mie
  let d3 := d2.dropCols ["engine", "transmission", "int_col", "ext_col"]
  (d3.getCol? "model_year").bind (fun cy =>
  (colRSub 2024 cy.data).map (fun age =>
  (d3.setCol "car_age" age).dropCols ["model_year"]))))))))

/-! ### Ordinal encoder and the `DataPreprocessor` pipeline object -/

/-- Model of `sklearn.preprocessing.OrdinalEncoder` as configured or loaded
by this module: the `handle_unknown='use_encoded_value'` flag, the
`unknown_value`, and the fitted `categories_` (one sorted string list per
encoded column, `none` while unfit). -/
structure OrdinalEncoderModel where
  handleUnknownUseEncoded : Bool
  unknownValue : ℤ
  categories? : Option (List (List String))
deriving DecidableEq, Repr

/-- The encoder built when loading the persisted one fails:
`OrdinalEncoder(handle_unknown='use_encoded_value', unknown_value=-1)`. -/
def fallbackEncoder : OrdinalEncoderModel :=
  ⟨true, -1, none⟩

/-- Fit the encoder on given per-column categories (the fit itself happens
in the training script, outside this module); fitting keeps the constructor
configuration. -/
def OrdinalEncoderModel.fit (enc : OrdinalEncoderModel)
    (cats : List (List String)) : OrdinalEncoderModel :=
  ⟨enc.handleUnknownUseEncoded, enc.unknownValue, some cats⟩

/-- Transform of one value against one column's fitted categories: position
when seen at fit time, otherwise `unknown_value` under
`handle_unknown='use_encoded_value'` and a `ValueError` (`none`) without
it. -/
def encodeValue (enc : OrdinalEncoderModel) (cats : List String)
    (s : String) : Option ℤ :=
  if s ∈ cats then some (cats.indexOf s : ℤ)
  else if enc.handleUnknownUseEncoded then some enc.unknownValue
  else none

/-- `astype(str)` of one object cell: `NaN` becomes the literal `"nan"`. -/
def astypeStr (o : Option String) : String :=
  o.getD "nan"

/-- Transform of one object column (`astype(str)` then the encoder). -/
def transformStrCol (enc : OrdinalEncoderModel) (cats : List String) :
    List (Option String) → Option (List (Option ℚ))
  | [] => some []
  | o :: rest =>
    (encodeValue enc cats (astypeStr o)).bind (fun z =>
      (transformStrCol enc cats rest).map (fun tl => some (z : ℚ) :: tl))

/-- `true` on `object` columns (`select_dtypes(include=['object'])`). -/
def isStrCol (c : Column) : Bool :=
  match c.data with
  | .strs _ => true
  | .nums _ => false

/-- Walk the columns in order, consuming one fitted category list per
`object` column and turning it into a numeric code column in place. -/
def encodeColsGo (enc : OrdinalEncoderModel) :
    List (List String) → List Column → Option (List Column)
  | _, [] => some []
  | catsRem, c :: rest =>
    match c.data with
    | .nums _ => (encodeColsGo enc catsRem rest).map (fun tl => c :: tl)
    | .strs xs =>
      match catsRem with
      | [] => none
      | cats :: moreCats =>
        (transformStrCol enc cats xs).bind (fun codes =>
          (encodeColsGo enc moreCats rest).map (fun tl =>
            ⟨c.name, .nums codes⟩ :: tl))

/-- The categorical-encoding step of `preprocess_data`:
`df[cat_cols] = encoder.transform(df[cat_cols].astype(str))`, guarded by
`if len(cat_cols) > 0`.  `none` models `NotFittedError` on an unfit encoder
and the `ValueError` on a feature-count mismatch. -/
def encodeCats (enc : OrdinalEncoderModel) (df : DataFrame) :
    Option DataFrame :=
  if df.cols.countP isStrCol = 0 then some df
  else
    match enc.categories? with
    | none => none
    | some catsList =>
      if catsList.length = df.cols.countP isStrCol then
        (encodeColsGo enc catsList df.cols).map (fun cs => ⟨df.index, cs⟩)
      else none

/-- The pipeline object.  The scaler carries no cross-call state that this
module reads back, so only the encoder is modelled as instance state. -/
structure DataPreprocessor where
  ordinal_encoder : OrdinalEncoderModel
deriving DecidableEq, Repr

/-- `DataPreprocessor.__init__`: `joblib.load` of the persisted encoder is
wrapped in a bare `try`/`except`, so any load failure (missing file, corrupt
blob, …) is swallowed and replaced by the fresh unfit `fallbackEncoder`;
construction itself never fails. -/
def DataPreprocessor.init (load : Except Unit OrdinalEncoderModel) :
    DataPreprocessor :=
  ⟨match load with
    | .ok e => e
    | .error _ => fallbackEncoder⟩

/-- `df.drop(columns=['id'])` guarded by `if 'id' in df.columns`. -/
def dropIdIfPresent (df : DataFrame) : DataFrame :=
  if "id" ∈ df.colNames then df.dropCols ["id"] else df

/-- `DataPreprocessor.preprocess_data`: drop `id` if present, impute with 25
neighbors, encode the categorical columns, compose features; on the
training path additionally remove outliers on `milage`, then on `price`,
then reset the row index. -/
def preprocess_data (P : DataPreprocessor) (df : DataFrame)
    (is_training : Bool) : Option DataFrame :=
  let df0 := dropIdIfPresent df
  (knn_impute df0 25).bind (fun d1 =>
  (encodeCats P.ordinal_encoder d1).bind (fun d2 =>
  (create_features d2).bind (fun d3 =>
  if is_training then
    (remove_outliers_iqr d3 "milage").bind (fun d4 =>
    (remove_outliers_iqr d4 "price").map (fun d5 => d5.resetIndex))
  else some d3)))

/-! ### `StandardScaler` and `prepare_for_training` -/

/-- Population variance, `mean((x-μ)²)`, as used by `StandardScaler`. -/
def varianceQ (xs : List ℚ) : ℚ :=
  meanQ (xs.map (fun x => (x - meanQ xs) ^ 2))

/-- Floor square root by bounded upward search (structural recursion, so
that concrete witnesses can be checked by evaluation). -/
def natSqrtLoop (n : ℕ) : ℕ → ℕ → ℕ
  | 0, acc => acc
  | fuel + 1, acc =>
    if (acc + 1) * (acc + 1) ≤ n then natSqrtLoop n fuel (acc + 1) else acc

/-- Floor square root. -/
def natSqrtFloor (n : ℕ) : ℕ :=
  natSqrtLoop n n 0

/-- Rational stand-in for `√q` (componentwise floor square root).  The true
scikit-learn scale `√variance` is irrational in general; every property
proved below depends only on the centering `x - μ`, never on the value of
the divisor, so the proofs are insensitive to this choice. -/
def ratSqrt (q : ℚ) : ℚ :=
  (natSqrtFloor q.num.toNat : ℚ) / (natSqrtFloor q.den : ℚ)

/-- The per-column divisor of `StandardScaler`: the square root of the
variance, with zero replaced by `1` (`_handle_zeros_in_scale`). -/
def stdScale (xs : List ℚ) : ℚ :=
  let v := varianceQ xs
  if v = 0 then 1 else ratSqrt v

/-- `StandardScaler.fit_transform` of one column: `(x - mean) / scale`. -/
def standardizeCol (xs : List ℚ) : List ℚ :=
  xs.map (fun x => (x - meanQ xs) / stdScale xs)

/-- Scale one named column in place.  `none` on a missing column
(`KeyError`), a string column or a `NaN` cell (both `ValueError` inside
`fit_transform`). -/
def scaleColumn (df : DataFrame) (nm : String) : Option DataFrame :=
  (df.getCol? nm).bind (fun c =>
    match c.data with
    | .strs _ => none
    | .nums xs =>
      (xs.mapM id).map (fun vals =>
        df.setCol nm (.nums ((standardizeCol vals).map some))))

/-- `df.loc[:, numeric_cols] = scaler.fit_transform(df[numeric_cols])`,
column by column.  The per-column statistics of `fit_transform` are
independent across columns and the column names are distinct, so the
sequential form agrees with the simultaneous assignment of the source. -/
def scaleColumns (df : DataFrame) : List String → Option DataFrame
  | [] => some df
  | nm :: rest => (scaleColumn df nm).bind (fun d => scaleColumns d rest)

/-- The fixed column set scaled by `prepare_for_training`. -/
def scaledColumns : List String :=
  ["brand", "model", "milage", "int_ext_color", "engine_transmission"]

/-- `DataPreprocessor.prepare_for_training`: preprocess in training mode,
optionally fit-and-apply the scaler to `scaledColumns`, then split into the
feature frame `X = df.drop(columns=[target_col])` and the target series
`y = df[target_col]` (both a `KeyError`, hence `none`, when the target is
absent). -/
def prepare_for_training (P : DataPreprocessor) (df : DataFrame)
    (target_col : String) (scale_features : Bool) :
    Option (DataFrame × ColData) :=
  (preprocess_data P df true).bind (fun d0 =>
  (if scale_features then scaleColumns d0 scaledColumns else some d0).bind
    (fun d1 =>
      (d1.getCol? target_col).map (fun yc =>
        (⟨d1.index, d1.cols.filter (fun c => ¬ c.name = target_col)⟩, yc.data))))

/-! ### Pipelines as the specification words them -/

/-- The training sequence exactly as the specification states it: drop `id`
if present, impute with 25 neighbors, ordinal-encode the categoricals,
compose features, remove outliers on `milage`, remove outliers on `price`
(on the already-`milage`-filtered table), reset the row index. -/
def trainingPipelineSpec (P : DataPreprocessor) (df : DataFrame) :
    Option DataFrame :=
  (knn_impute (dropIdIfPresent df) 25).bind (fun imputed =>
  (encodeCats P.ordinal_encoder imputed).bind (fun encoded =>
  (create_features encoded).bind (fun featured =>
  (remove_outliers_iqr featured "milage").bind (fun milageFiltered =>
  (remove_outliers_iqr milageFiltered "price").map (fun priceFiltered =>
  priceFiltered.resetIndex)))))

/-- The inference sequence exactly as the specification states it: drop
`id` if present, impute with 25 neighbors, ordinal-encode the categoricals,
compose features — no outlier removal and no index reset. -/
def inferencePipelineSpec (P : DataPreprocessor) (df : DataFrame) :
    Option DataFrame :=
  (knn_impute (dropIdIfPresent df) 25).bind (fun imputed =>
  (encodeCats P.ordinal_encoder imputed).bind (fun encoded =>
  create_features encoded))

/-! ### Index and row-count bookkeeping lemmas -/

theorem setCol_index (df : DataFrame) (nm : String) (d : ColData) :
    (df.setCol nm d).index = df.index := by
  unfold DataFrame.setCol
  split <;> rfl

theorem dropCols_index (df : DataFrame) (nms : List String) :
    (df.dropCols nms).index = df.index := rfl

theorem dropIdIfPresent_index (df : DataFrame) :
    (dropIdIfPresent df).index = df.index := by
  unfold dropIdIfPresent
  split <;> rfl

theorem knn_impute_index (df : DataFrame) (k : ℕ) (out : DataFrame)
    (h : knn_impute df k = some out) :
    out.index = (List.range df.numRows).map Int.ofNat := by
  unfold knn_impute at h
  dsimp only at h
  split at h
  · exact absurd h (by simp)
  · cases h
    rfl

theorem knn_impute_numRows (df : DataFrame) (k : ℕ) (out : DataFrame)
    (h : knn_impute df k = some out) : out.numRows = df.numRows := by
  have := knn_impute_index df k out h
  simp [DataFrame.numRows, this]

theorem encodeCats_index (enc : OrdinalEncoderModel) (df out : DataFrame)
    (h : encodeCats enc df = some out) : out.index = df.index := by
  unfold encodeCats at h
  split at h
  · cases h; rfl
  · split at h
    · exact absurd h (by simp)
    · split at h
      · obtain ⟨cs, hcs, rfl⟩ := Option.map_eq_some'.mp h
        rfl
      · exact absurd h (by simp)

theorem create_features_index (df out : DataFrame)
    (h : create_features df = some out) : out.index = df.index := by
  unfold create_features at h
  obtain ⟨ce, h1, h⟩ := Option.bind_eq_some.mp h
  obtain ⟨ct, h2, h⟩ := Option.bind_eq_some.mp h
  obtain ⟨met, h3, h⟩ := Option.bind_eq_some.mp h
  obtain ⟨ci, h4, h⟩ := Option.bind_eq_some.mp h
  obtain ⟨cx, h5, h⟩ := Option.bind_eq_some.mp h
  obtain ⟨mie, h6, h⟩ := Option.bind_eq_some.mp h
  obtain ⟨cy, h7, h⟩ := Option.bind_eq_some.mp h
  obtain ⟨age, h8, rfl⟩ := Option.map_eq_some'.mp h
  simp [dropCols_index, setCol_index]

/-! ### Concrete frames used by the witnesses -/

/-- A preprocessor whose encoder was fitted (externally) on one
categorical column with categories `["x", "y"]`. -/
def wP : DataPreprocessor :=
  ⟨fallbackEncoder.fit [["x", "y"]]⟩

/-- Inference-side input: an `id` column, one categorical column with an
unseen value, one missing `milage` cell, and a non-positional index. -/
def wInfIn : DataFrame :=
  ⟨[5, 7],
   [⟨"id", .nums [some 1, some 2]⟩,
    ⟨"engine", .nums [some 2, some 3]⟩,
    ⟨"transmission", .nums [some 5, some 7]⟩,
    ⟨"int_col", .nums [some 1, some 2]⟩,
    ⟨"ext_col", .nums [some 3, some 5]⟩,
    ⟨"brand", .strs [some "y", some "z"]⟩,
    ⟨"model_year", .nums [some 2000, some 2010]⟩,
    ⟨"milage", .nums [some 1, none]⟩]⟩

/-- `preprocess_data wP wInfIn false` (checked by `decide` in the
witnesses): `id` dropped, `milage` imputed from its only donor, `"y" ↦ 1`,
unseen `"z" ↦ -1`, features composed, no row dropped, fresh index. -/
def wInfOut : DataFrame :=
  ⟨[0, 1],
   [⟨"brand", .nums [some 1, some (-1)]⟩,
    ⟨"milage", .nums [some 1, some 1]⟩,
    ⟨"engine_transmission", .nums [some 10, some 21]⟩,
    ⟨"int_ext_color", .nums [some 3, some 10]⟩,
    ⟨"car_age", .nums [some 24, some 14]⟩]⟩

/-- A one-column frame with a non-positional index. -/
def wIdxIn : DataFrame :=
  ⟨[5, 7], [⟨"a", .nums [some 1, some 2]⟩]⟩

/-- `knn_impute wIdxIn 3`: same cells, fresh positional index. -/
def wIdxOut : DataFrame :=
  ⟨[0, 1], [⟨"a", .nums [some 1, some 2]⟩]⟩

/-! ### Claim C2 -/

/-- C2: for every input table, `preprocess_data` with `is_training=True` is
exactly the composition: drop `id` if present, then `knn_impute` with 25
neighbors, then ordinal-encode the categorical columns, then
`create_features`, then `remove_outliers_iqr` on `milage`, then
`remove_outliers_iqr` on `price` (whose quartiles are computed on the
already-`milage`-filtered table), then reset the row index — no stage
skipped, reordered, or repeated. -/
theorem claim_C2 (P : DataPreprocessor) (df : DataFrame) :
    preprocess_data P df true = trainingPipelineSpec P df := rfl

/-! ### Claim C6 -/

/-- C6: the inference path of `preprocess_data` is exactly drop-`id`,
imputation, encoding and feature composition — no outlier removal — and it
never drops rows: whenever it returns a table, that table has exactly the
input's row count. -/
theorem claim_C6 :
    (∀ (P : DataPreprocessor) (df : DataFrame),
      preprocess_data P df false = inferencePipelineSpec P df) ∧
    (∀ (P : DataPreprocessor) (df out : DataFrame),
      preprocess_data P df false = some out → out.numRows = df.numRows) := by
  constructor
  · intro P df
    unfold preprocess_data inferencePipelineSpec
    dsimp only
    congr 1
    funext d1
    congr 1
    funext d2
    cases create_features d2 <;> rfl
  · intro P df out h
    unfold preprocess_data at h
    dsimp only at h
    obtain ⟨d1, h1, h⟩ := Option.bind_eq_some.mp h
    obtain ⟨d2, h2, h⟩ := Option.bind_eq_some.mp h
    obtain ⟨d3, h3, h⟩ := Option.bind_eq_some.mp h
    simp only [Bool.false_eq_true, if_false, Option.some.injEq] at h
    subst h
    calc d3.numRows
        = d2.numRows := by
          simp [DataFrame.numRows, create_features_index _ _ h3]
      _ = d1.numRows := by
          simp [DataFrame.numRows, encodeCats_index _ _ _ h2]
      _ = (dropIdIfPresent df).numRows := knn_impute_numRows _ _ _ h1
      _ = df.numRows := by
          simp [DataFrame.numRows, dropIdIfPresent_index]

/-- Witness for C6 on the concrete frames above. -/
theorem claim_C6_witness :
    preprocess_data wP wInfIn false = inferencePipelineSpec wP wInfIn ∧
    wInfOut.numRows = wInfIn.numRows :=
  ⟨claim_C6.1 wP wInfIn, claim_C6.2 wP wInfIn wInfOut (by decide)⟩

/-! ### Claim C10 -/

/-- C10: `knn_impute` always returns a frame with the fresh positional
index `0,…,n-1` (`n` = input row count) regardless of the input's index,
and consequently the output of the inference path of `preprocess_data` also
carries a fresh positional index although that path performs no explicit
index reset. -/
theorem claim_C10 :
    (∀ (df : DataFrame) (k : ℕ) (out : DataFrame),
      knn_impute df k = some out →
      out.index = (List.range df.numRows).map Int.ofNat) ∧
    (∀ (P : DataPreprocessor) (df out : DataFrame),
      preprocess_data P df false = some out →
      out.index = (List.range out.numRows).map Int.ofNat) := by
  constructor
  · exact knn_impute_index
  · intro P df out h
    unfold preprocess_data at h
    dsimp only at h
    obtain ⟨d1, h1, h⟩ := Option.bind_eq_some.mp h
    obtain ⟨d2, h2, h⟩ := Option.bind_eq_some.mp h
    obtain ⟨d3, h3, h⟩ := Option.bind_eq_some.mp h
    simp only [Bool.false_eq_true, if_false, Option.some.injEq] at h
    subst h
    have hidx : d3.index = (List.range (dropIdIfPresent df).numRows).map Int.ofNat := by
      rw [create_features_index _ _ h3, encodeCats_index _ _ _ h2]
      exact knn_impute_index _ _ _ h1
    have hn : d3.numRows = (dropIdIfPresent df).numRows := by
      simp [DataFrame.numRows, hidx]
    rw [hidx, hn]

/-- Witness for C10 on the concrete frames above. -/
theorem claim_C10_witness :
    wIdxOut.index = (List.range wIdxIn.numRows).map Int.ofNat ∧
    wInfOut.index = (List.range wInfOut.numRows).map Int.ofNat :=
  ⟨claim_C10.1 wIdxIn 3 wIdxOut (by decide),
   claim_C10.2 wP wInfIn wInfOut (by decide)⟩

/-! ### Category round-trip lemmas -/

theorem mem_insertSorted {α : Type} (le : α → α → Bool) (a b : α)
    (l : List α) : b ∈ insertSorted le a l ↔ b = a ∨ b ∈ l := by
  induction l with
  | nil => simp [insertSorted]
  | cons c t ih =>
    by_cases h : le c a = true
    · simp only [insertSorted, if_pos h, List.mem_cons, ih]
      tauto
    · simp only [insertSorted, if_neg h, List.mem_cons]

theorem mem_sortBy {α : Type} (le : α → α → Bool) (a : α) (l : List α) :
    a ∈ sortBy le l ↔ a ∈ l := by
  induction l with
  | nil => simp [sortBy]
  | cons c t ih =>
    simp only [sortBy, List.foldr_cons] at ih ⊢
    rw [mem_insertSorted, ih, List.mem_cons]

theorem mem_catCategories {xs : List (Option String)} {s : String}
    (h : some s ∈ xs) : s ∈ catCategories xs := by
  rw [catCategories, mem_sortBy, List.mem_dedup]
  exact List.mem_filterMap.mpr ⟨some s, h, rfl⟩

theorem roundHalfEven_intCast (n : ℤ) : roundHalfEven ((n : ℤ) : ℚ) = n := by
  simp only [roundHalfEven, Int.floor_intCast, sub_self]
  norm_num

/-- Decoding the code of an observed value recovers the value: the heart of
the `astype('category')`/`cat.codes`/`dict(enumerate(categories))`
round-trip inside `knn_impute`. -/
theorem catDecode_catCode {xs : List (Option String)} {s : String}
    (h : some s ∈ xs) :
    catDecode (catCategories xs) ((catCode (catCategories xs) (some s) : ℤ) : ℚ)
      = some s := by
  have hmem : s ∈ catCategories xs := mem_catCategories h
  simp only [catCode, catDecode, if_pos hmem, roundHalfEven_intCast]
  rw [if_neg, Int.toNat_natCast]
  · exact List.getElem?_indexOf hmem
  · simp

/-! ### Claim C9 -/

/-- C9: for a categorical column with no missing values, `knn_impute`'s
temporary integer encoding (codes from the stable sorted enumeration of
observed categories) followed by its inverse map (round, then look the code
up in the same enumeration) returns every original string unchanged. -/
theorem claim_C9 (xs : List String) :
    xs.map (fun s =>
      catDecode (catCategories (xs.map some))
        ((catCode (catCategories (xs.map some)) (some s) : ℤ) : ℚ))
      = xs.map some := by
  apply List.map_congr_left
  intro s hs
  exact catDecode_catCode (List.mem_map_of_mem some hs)

/-! ### Claim C5 -/

/-- C5: a value unseen at fit time is transformed to the sentinel
`unknown_value` (configured as `-1`) instead of raising; the whole column
transform never fails under `handle_unknown='use_encoded_value'`; and
`DataPreprocessor.__init__` swallows any encoder-load failure, falling back
to the unfit `OrdinalEncoder(handle_unknown='use_encoded_value',
unknown_value=-1)`. -/
theorem claim_C5 :
    (∀ e, DataPreprocessor.init (Except.error e) = ⟨fallbackEncoder⟩) ∧
    fallbackEncoder = ⟨true, -1, none⟩ ∧
    (∀ (enc : OrdinalEncoderModel) (cats : List String) (s : String),
      enc.handleUnknownUseEncoded = true → s ∉ cats →
      encodeValue enc cats s = some enc.unknownValue) ∧
    (∀ (enc : OrdinalEncoderModel) (cats : List String)
        (xs : List (Option String)),
      enc.handleUnknownUseEncoded = true →
      (transformStrCol enc cats xs).isSome = true) := by
  refine ⟨fun e => rfl, rfl, ?_, ?_⟩
  · intro enc cats s hU hm
    simp [encodeValue, hm, hU]
  · intro enc cats xs hU
    induction xs with
    | nil => rfl
    | cons o rest ih =>
      obtain ⟨tl, htl⟩ := Option.isSome_iff_exists.mp ih
      by_cases hm : astypeStr o ∈ cats
      · simp [transformStrCol, encodeValue, hm, htl]
      · simp [transformStrCol, encodeValue, hm, hU, htl]

/-- Witness for C5: `"zz"` was never seen by an encoder fitted on `["x"]`,
and the transform of a column holding `"zz"` and a `NaN` still succeeds. -/
theorem claim_C5_witness :
    DataPreprocessor.init (Except.error ()) = ⟨fallbackEncoder⟩ ∧
    encodeValue (fallbackEncoder.fit [["x"]]) ["x"] "zz"
      = some (fallbackEncoder.fit [["x"]]).unknownValue ∧
    (transformStrCol (fallbackEncoder.fit [["x"]]) ["x"]
      [some "zz", none]).isSome = true :=
  ⟨claim_C5.1 (),
   claim_C5.2.2.1 (fallbackEncoder.fit [["x"]]) ["x"] "zz" rfl (by decide),
   claim_C5.2.2.2 (fallbackEncoder.fit [["x"]]) ["x"] [some "zz", none] rfl⟩

/-! ### Claim C1 -/

/-- A two-row frame whose categorical column has a missing value. -/
def wBugIn : DataFrame :=
  ⟨[0, 1], [⟨"color", .strs [some "a", none]⟩, ⟨"x", .nums [some 1, some 2]⟩]⟩

/-- C1 fails on the code: on `wBugIn`, `knn_impute` returns the categorical
`NaN` untouched (it is encoded to the non-missing code `-1`, never imputed,
and decoded back to `NaN`), so the result still has a missing value,
contradicting the claimed contract that the output contains no missing
values in any column. -/
theorem claim_C1_bug :
    knn_impute wBugIn 1 =
      some ⟨[0, 1], [⟨"color", .strs [some "a", none]⟩,
                     ⟨"x", .nums [some 1, some 2]⟩]⟩ ∧
    (knn_impute wBugIn 1).map DataFrame.hasMissing = some true := by
  constructor <;> decide

/-! ### Claim C3 -/

theorem maskFilter_sublist {α : Type} (mask : List Bool) (xs : List α) :
    (maskFilter mask xs).Sublist xs := by
  induction mask generalizing xs with
  | nil => simp [maskFilter]
  | cons b ms ih =>
    cases xs with
    | nil => simp [maskFilter]
    | cons x t =>
      cases b with
      | true =>
        simpa [maskFilter] using List.Sublist.cons₂ x (ih t)
      | false =>
        simpa [maskFilter] using List.Sublist.cons x (ih t)

theorem maskFilter_cons {α : Type} (b : Bool) (ms : List Bool) (x : α)
    (t : List α) :
    maskFilter (b :: ms) (x :: t) =
      if b then x :: maskFilter ms t else maskFilter ms t := by
  cases b <;> simp [maskFilter]

theorem mem_maskFilter_map {α : Type} (p : α → Bool) (xs : List α) (a : α)
    (h : a ∈ maskFilter (xs.map p) xs) : p a = true := by
  induction xs with
  | nil => simp [maskFilter] at h
  | cons x t ih =>
    rw [List.map_cons, maskFilter_cons] at h
    by_cases hp : p x = true
    · rw [if_pos hp] at h
      rcases List.mem_cons.mp h with rfl | h2
      · exact hp
      · exact ih h2
    · rw [if_neg hp] at h
      exact ih h

/-- Everything C3 asserts about `remove_outliers_iqr df column` when the
column holds the numeric cells `xs`: the output is exactly the mask-filtered
subset of the input rows, its rows are a subsequence of the input rows, its
row count is bounded by the input's, and every surviving value of the
column lies within `[Q1 - 1.5*IQR, Q3 + 1.5*IQR]` for the quartiles of the
given input. -/
def OutlierPost (df : DataFrame) (xs : List (Option ℚ)) (out : DataFrame) :
    Prop :=
  let obs := xs.filterMap id
  let Q1 := quantileLinear obs (1 / 4)
  let Q3 := quantileLinear obs (3 / 4)
  let lower := Q1 - 3 / 2 * (Q3 - Q1)
  let upper := Q3 + 3 / 2 * (Q3 - Q1)
  out = df.filterRows (iqrMask lower upper xs) ∧
  out.index.Sublist df.index ∧
  out.numRows ≤ df.numRows ∧
  ∀ v : ℚ, some v ∈ maskFilter (iqrMask lower upper xs) xs →
    lower ≤ v ∧ v ≤ upper

/-- C3: `remove_outliers_iqr` on a numeric column with at least one observed
value returns exactly the rows within the IQR fence computed on the given
input (`OutlierPost`).  Determinism and non-mutation of the input hold by
construction, the function being a pure one in the embedding exactly as the
source works on fresh boolean-indexed views. -/
theorem claim_C3 (df : DataFrame) (column : String) (xs : List (Option ℚ))
    (out : DataFrame)
    (hcol : df.getCol? column = some ⟨column, .nums xs⟩)
    (hobs : (xs.filterMap id).isEmpty = false)
    (hout : remove_outliers_iqr df column = some out) :
    OutlierPost df xs out := by
  unfold remove_outliers_iqr at hout
  rw [hcol, Option.some_bind] at hout
  dsimp only at hout
  simp only [hobs, Bool.false_eq_true, if_false, Option.some.injEq] at hout
  subst hout
  refine ⟨rfl, maskFilter_sublist _ _, ?_, ?_⟩
  · exact (maskFilter_sublist _ _).length_le
  · intro v hv
    unfold iqrMask at hv
    have h2 := mem_maskFilter_map _ xs (some v) hv
    exact of_decide_eq_true h2

/-- Input frame for the C3 witness: one numeric column with an outlier. -/
def wOutIn : DataFrame :=
  ⟨[0, 1, 2, 3, 4],
   [⟨"milage", .nums [some 1, some 2, some 3, some 4, some 5000]⟩]⟩

/-- `remove_outliers_iqr wOutIn "milage"`: the fence is `[-1, 7]`, the
outlier row is dropped and the surviving rows keep their labels. -/
def wOutOut : DataFrame :=
  ⟨[0, 1, 2, 3], [⟨"milage", .nums [some 1, some 2, some 3, some 4]⟩]⟩

/-- Witness for C3 on the concrete frames above. -/
theorem claim_C3_witness :
    OutlierPost wOutIn [some 1, some 2, some 3, some 4, some 5000] wOutOut :=
  claim_C3 wOutIn "milage" [some 1, some 2, some 3, some 4, some 5000]
    wOutOut (by decide) (by decide) (by decide)

/-! ### Column bookkeeping lemmas for `create_features` -/

theorem setCol_not_mem (df : DataFrame) (nm : String) (d : ColData)
    (h : nm ∉ df.colNames) :
    df.setCol nm d = ⟨df.index, df.cols ++ [⟨nm, d⟩]⟩ := by
  unfold DataFrame.setCol
  rw [if_neg]
  simp only [List.any_eq_true, decide_eq_true_eq]
  rintro ⟨c, hc, hnm⟩
  exact h (List.mem_map.mpr ⟨c, hc, hnm⟩)

/-- `find?` by name commutes with a filter that keeps every column of the
sought name. -/
theorem find?_name_filter (cols : List Column) (q : Column → Bool)
    (nm : String) (hq : ∀ c : Column, c.name = nm → q c = true) :
    (cols.filter q).find? (fun c => c.name = nm)
      = cols.find? (fun c => c.name = nm) := by
  induction cols with
  | nil => rfl
  | cons c t ih =>
    by_cases hc : c.name = nm
    · rw [List.filter_cons_of_pos (hq c hc),
        List.find?_cons_of_pos _ (by simp [hc]),
        List.find?_cons_of_pos _ (by simp [hc])]
    · by_cases hqc : q c = true
      · rw [List.filter_cons_of_pos hqc,
          List.find?_cons_of_neg _ (by simp [hc]),
          List.find?_cons_of_neg _ (by simp [hc]), ih]
      · rw [List.filter_cons_of_neg (by simp [hqc]),
          List.find?_cons_of_neg _ (by simp [hc]), ih]

theorem getCol?_mk_append_sing (idx : List ℤ) (cols : List Column)
    (c' : Column) (nm : String) (hne : ¬ c'.name = nm) :
    (DataFrame.mk idx (cols ++ [c'])).getCol? nm
      = (DataFrame.mk idx cols).getCol? nm := by
  unfold DataFrame.getCol?
  rw [List.find?_append]
  have h0 : List.find? (fun c => c.name = nm) [c'] = none := by
    simp [List.find?, hne]
  rw [h0]
  cases cols.find? (fun c => c.name = nm) <;> rfl

theorem colNames_mk_append_sing (idx : List ℤ) (cols : List Column)
    (c' : Column) :
    (DataFrame.mk idx (cols ++ [c'])).colNames
      = cols.map (fun c => c.name) ++ [c'.name] := by
  simp [DataFrame.colNames]

theorem mem_colNames_setCol (df : DataFrame) (nm nm' : String) (d : ColData)
    (h : nm' ∈ (df.setCol nm d).colNames) : nm' = nm ∨ nm' ∈ df.colNames := by
  unfold DataFrame.setCol at h
  split at h
  · rw [DataFrame.colNames, List.map_map] at h
    obtain ⟨c, hc, hname⟩ := List.mem_map.mp h
    simp only [Function.comp] at hname
    by_cases he : c.name = nm
    · rw [if_pos he] at hname
      exact Or.inl hname.symm
    · rw [if_neg he] at hname
      exact Or.inr (List.mem_map.mpr ⟨c, hc, hname⟩)
  · rw [DataFrame.colNames] at h
    simp only [List.map_append, List.mem_append, List.map_cons, List.map_nil,
      List.mem_singleton] at h
    rcases h with h | h
    · exact Or.inr h
    · exact Or.inl h

theorem mem_colNames_dropCols (df : DataFrame) (nms : List String)
    (nm : String) (h : nm ∈ (df.dropCols nms).colNames) :
    nm ∈ df.colNames := by
  rw [DataFrame.dropCols, DataFrame.colNames] at h
  obtain ⟨c, hc, hname⟩ := List.mem_map.mp h
  exact List.mem_map.mpr ⟨c, List.mem_of_mem_filter hc, hname⟩

theorem getCol?_name_mem (df : DataFrame) (nm : String) (c : Column)
    (h : df.getCol? nm = some c) : nm ∈ df.colNames := by
  have hmem := List.mem_of_find?_eq_some h
  have hname : (c.name = nm) := by
    have := List.find?_some h
    simpa using this
  exact List.mem_map.mpr ⟨c, hmem, hname⟩

/-! ### Claim C4 -/

/-- The five source columns consumed by `create_features`. -/
def featureSources : List String :=
  ["engine", "transmission", "int_col", "ext_col", "model_year"]

/-- Merging the two `drop` steps of `create_features` into one filter that
removes exactly the five source columns. -/
theorem filter_sources_pair (cols : List Column) :
    (cols.filter
        (fun c => ¬ (["engine", "transmission", "int_col", "ext_col"] :
          List String).contains c.name)).filter
      (fun c => ¬ (["model_year"] : List String).contains c.name)
    = cols.filter (fun c => ¬ featureSources.contains c.name) := by
  rw [List.filter_filter]
  apply List.filter_congr
  intro c _
  rw [← Bool.decide_and, decide_eq_decide]
  simp only [featureSources, List.contains_cons, List.contains_nil,
    Bool.or_eq_true, beq_iff_eq, Bool.or_false]
  tauto

/-- C4 (positive half): on a frame whose five source columns exist and are
numeric and whose three derived column names are fresh, `create_features`
removes exactly the five sources, appends exactly
`engine_transmission = engine * transmission`,
`int_ext_color = int_col * ext_col` and `car_age = 2024 - model_year`
(element-wise, `NaN` propagating), and leaves every other column unchanged
in place; (negative half): on any frame missing one of the five source
columns it raises a missing-key error. -/
theorem claim_C4 :
    (∀ (df : DataFrame) (es ts is2 xs2 ms : List (Option ℚ)),
      df.getCol? "engine" = some ⟨"engine", .nums es⟩ →
      df.getCol? "transmission" = some ⟨"transmission", .nums ts⟩ →
      df.getCol? "int_col" = some ⟨"int_col", .nums is2⟩ →
      df.getCol? "ext_col" = some ⟨"ext_col", .nums xs2⟩ →
      df.getCol? "model_year" = some ⟨"model_year", .nums ms⟩ →
      "engine_transmission" ∉ df.colNames →
      "int_ext_color" ∉ df.colNames →
      "car_age" ∉ df.colNames →
      create_features df = some ⟨df.index,
        (df.dropCols featureSources).cols ++
          [⟨"engine_transmission", .nums (List.zipWith optMul es ts)⟩,
           ⟨"int_ext_color", .nums (List.zipWith optMul is2 xs2)⟩,
           ⟨"car_age", .nums (ms.map (Option.map (fun v => 2024 - v)))⟩]⟩) ∧
    (∀ df : DataFrame, (¬ ∀ nm ∈ featureSources, nm ∈ df.colNames) →
      create_features df = none) := by
  constructor
  · intro df es ts is2 xs2 ms he ht hi hx hm hf1 hf2 hf3
    unfold create_features
    rw [he, ht]
    simp only [Option.some_bind, colMul]
    rw [setCol_not_mem df _ _ hf1]
    rw [getCol?_mk_append_sing _ _ _ _ (by simp), hi,
      getCol?_mk_append_sing _ _ _ _ (by simp), hx]
    simp only [Option.some_bind, colMul]
    rw [setCol_not_mem _ _ _ (by
      rw [colNames_mk_append_sing]
      simp only [List.mem_append, List.mem_singleton]
      rintro (h | h)
      · exact hf2 h
      · exact absurd h (by decide))]
    rw [show (DataFrame.mk df.index
          (df.cols ++ [⟨"engine_transmission", .nums (List.zipWith optMul es ts)⟩])).index
        = df.index from rfl,
      show (DataFrame.mk df.index
          (df.cols ++ [⟨"engine_transmission", .nums (List.zipWith optMul es ts)⟩])).cols
        = df.cols ++ [⟨"engine_transmission", .nums (List.zipWith optMul es ts)⟩] from rfl]
    rw [List.append_assoc]
    rw [show ([(⟨"engine_transmission", .nums (List.zipWith optMul es ts)⟩ : Column)]
          ++ [⟨"int_ext_color", .nums (List.zipWith optMul is2 xs2)⟩])
        = [⟨"engine_transmission", .nums (List.zipWith optMul es ts)⟩,
           ⟨"int_ext_color", .nums (List.zipWith optMul is2 xs2)⟩] from rfl]
    unfold DataFrame.dropCols
    rw [show (DataFrame.mk df.index
        (df.cols ++ [⟨"engine_transmission", .nums (List.zipWith optMul es ts)⟩,
          ⟨"int_ext_color", .nums (List.zipWith optMul is2 xs2)⟩])).cols
      = df.cols ++ [⟨"engine_transmission", .nums (List.zipWith optMul es ts)⟩,
          ⟨"int_ext_color", .nums (List.zipWith optMul is2 xs2)⟩] from rfl]
    rw [List.filter_append]
    rw [show List.filter
        (fun c => ¬ (["engine", "transmission", "int_col", "ext_col"] :
          List String).contains c.name)
        [(⟨"engine_transmission", .nums (List.zipWith optMul es ts)⟩ : Column),
         ⟨"int_ext_color", .nums (List.zipWith optMul is2 xs2)⟩]
      = [⟨"engine_transmission", .nums (List.zipWith optMul es ts)⟩,
         ⟨"int_ext_color", .nums (List.zipWith optMul is2 xs2)⟩] by
      rw [List.filter_cons_of_pos (by simp), List.filter_cons_of_pos (by simp)]
      rfl]
    rw [show (DataFrame.mk df.index
        (List.filter
          (fun c => ¬ (["engine", "transmission", "int_col", "ext_col"] :
            List String).contains c.name) df.cols ++
          [⟨"engine_transmission", .nums (List.zipWith optMul es ts)⟩,
           ⟨"int_ext_color", .nums (List.zipWith optMul is2 xs2)⟩])).getCol? "model_year"
        = df.getCol? "model_year" by
      unfold DataFrame.getCol?
      rw [List.find?_append, find?_name_filter _ _ _ (fun c hc => by
        rw [hc]; decide)]
      rw [show DataFrame.cols df = df.cols from rfl]
      rw [show df.cols.find? (fun c => c.name = "model_year")
          = some ⟨"model_year", .nums ms⟩ from hm]
      rfl]
    rw [hm]
    simp only [Option.some_bind, colRSub, Option.map_some']
    rw [setCol_not_mem _ _ _ (by
      rw [DataFrame.colNames]
      simp only [List.map_append, List.mem_append, List.map_cons, List.map_nil,
        List.mem_cons, List.mem_singleton]
      rintro (h | h)
      · obtain ⟨c, hc, hname⟩ := List.mem_map.mp h
        exact hf3 (List.mem_map.mpr ⟨c, List.mem_of_mem_filter hc, hname⟩)
      · rcases h with h | h | h
        · exact absurd h (by decide)
        · exact absurd h (by decide)
        · exact absurd h (List.not_mem_nil _))]
    dsimp only
    simp only [Option.some.injEq, DataFrame.mk.injEq]
    refine ⟨trivial, ?_⟩
    rw [List.filter_append, List.filter_append, filter_sources_pair]
    rw [show List.filter (fun c => ¬ (["model_year"] : List String).contains c.name)
        [(⟨"engine_transmission", .nums (List.zipWith optMul es ts)⟩ : Column),
         ⟨"int_ext_color", .nums (List.zipWith optMul is2 xs2)⟩]
      = [⟨"engine_transmission", .nums (List.zipWith optMul es ts)⟩,
         ⟨"int_ext_color", .nums (List.zipWith optMul is2 xs2)⟩] by
      rw [List.filter_cons_of_pos (by simp), List.filter_cons_of_pos (by simp)]
      rfl]
    rw [show List.filter (fun c => ¬ (["model_year"] : List String).contains c.name)
        [(⟨"car_age", .nums (ms.map (Option.map (fun v => 2024 - v)))⟩ : Column)]
      = [⟨"car_age", .nums (ms.map (Option.map (fun v => 2024 - v)))⟩] by
      rw [List.filter_cons_of_pos (by simp)]
      rfl]
    simp [List.append_assoc]
  · intro df h
    cases hcf : create_features df with
    | none => rfl
    | some out =>
      exfalso
      apply h
      unfold create_features at hcf
      obtain ⟨ce, he, hcf⟩ := Option.bind_eq_some.mp hcf
      obtain ⟨ct, ht, hcf⟩ := Option.bind_eq_some.mp hcf
      obtain ⟨met, hmet, hcf⟩ := Option.bind_eq_some.mp hcf
      obtain ⟨ci, hi, hcf⟩ := Option.bind_eq_some.mp hcf
      obtain ⟨cx, hx, hcf⟩ := Option.bind_eq_some.mp hcf
      obtain ⟨mie, hmie, hcf⟩ := Option.bind_eq_some.mp hcf
      obtain ⟨cy, hy, hcf⟩ := Option.bind_eq_some.mp hcf
      intro nm hnm
      have hi' : "int_col" ∈ df.colNames := by
        rcases mem_colNames_setCol _ _ _ _ (getCol?_name_mem _ _ _ hi) with h0 | h0
        · exact absurd h0 (by decide)
        · exact h0
      have hx' : "ext_col" ∈ df.colNames := by
        rcases mem_colNames_setCol _ _ _ _ (getCol?_name_mem _ _ _ hx) with h0 | h0
        · exact absurd h0 (by decide)
        · exact h0
      have hy' : "model_year" ∈ df.colNames := by
        have h1 := getCol?_name_mem _ _ _ hy
        have h2 := mem_colNames_dropCols _ _ _ h1
        rcases mem_colNames_setCol _ _ _ _ h2 with h0 | h0
        · exact absurd h0 (by decide)
        · rcases mem_colNames_setCol _ _ _ _ h0 with h3 | h3
          · exact absurd h3 (by decide)
          · exact h3
      simp only [featureSources, List.mem_cons, List.mem_singleton,
        List.not_mem_nil, or_false] at hnm
      rcases hnm with rfl | rfl | rfl | rfl | rfl
      · exact getCol?_name_mem _ _ _ he
      · exact getCol?_name_mem _ _ _ ht
      · exact hi'
      · exact hx'
      · exact hy'

/-- Input frame for the C4 witness: the five sources (one with a `NaN`
`model_year` cell, to exhibit element-wise `NaN` propagation) plus one
bystander column. -/
def wFeatIn : DataFrame :=
  ⟨[0, 1],
   [⟨"brand", .nums [some 7, some 8]⟩,
    ⟨"engine", .nums [some 2, some 3]⟩,
    ⟨"transmission", .nums [some 5, some 7]⟩,
    ⟨"int_col", .nums [some 1, some 2]⟩,
    ⟨"ext_col", .nums [some 3, some 5]⟩,
    ⟨"model_year", .nums [some 2000, none]⟩]⟩

/-- A frame with none of the five source columns. -/
def wNoEngine : DataFrame :=
  ⟨[0], [⟨"x", .nums [some 1]⟩]⟩

/-- Witness for C4 on the concrete frames above. -/
theorem claim_C4_witness :
    create_features wFeatIn = some ⟨wFeatIn.index,
      (wFeatIn.dropCols featureSources).cols ++
        [⟨"engine_transmission",
           .nums (List.zipWith optMul [some 2, some 3] [some 5, some 7])⟩,
         ⟨"int_ext_color",
           .nums (List.zipWith optMul [some 1, some 2] [some 3, some 5])⟩,
         ⟨"car_age",
           .nums ([some 2000, none].map (Option.map (fun v => 2024 - v)))⟩]⟩ ∧
    create_features wNoEngine = none :=
  ⟨claim_C4.1 wFeatIn [some 2, some 3] [some 5, some 7] [some 1, some 2]
      [some 3, some 5] [some 2000, none] (by decide) (by decide) (by decide)
      (by decide) (by decide) (by decide) (by decide) (by decide),
   claim_C4.2 wNoEngine (by decide)⟩

/-! ### Claim C8: `knn_impute` is the identity on fully-observed frames -/

theorem exists_map_some {α : Type} (xs : List (Option α))
    (h : ∀ o ∈ xs, o.isSome = true) : ∃ vs : List α, xs = vs.map some := by
  induction xs with
  | nil => exact ⟨[], rfl⟩
  | cons o t ih =>
    obtain ⟨vs, hvs⟩ := ih (fun o' ho' => h o' (List.mem_cons_of_mem _ ho'))
    obtain ⟨v, hv⟩ := Option.isSome_iff_exists.mp (h o (List.mem_cons_self _ _))
    exact ⟨v :: vs, by rw [List.map_cons, ← hvs, hv]⟩

theorem all_isSome_of_any_isNone_false {α : Type} (xs : List (Option α))
    (h : xs.any (fun o => o.isNone) = false) : ∀ o ∈ xs, o.isSome = true := by
  intro o ho
  have h2 := List.any_eq_false.mp h o ho
  cases o with
  | none => simp at h2
  | some v => rfl

theorem enumFrom_map_some_extract {α : Type} (f : ℕ → α) (vs : List α) :
    ∀ s : ℕ,
      (List.enumFrom s (vs.map some)).map (fun pr => pr.2.getD (f pr.1))
        = vs := by
  induction vs with
  | nil => intro s; rfl
  | cons v t ih =>
    intro s
    rw [List.map_cons, List.enumFrom_cons, List.map_cons, ih (s + 1)]
    rfl

/-- The imputer writes only to missing cells: a fully observed column comes
back unchanged. -/
theorem imputeColumn_map_some (mat : List (List (Option ℚ))) (k : ℕ)
    (vs : List ℚ) : imputeColumn mat k (vs.map some) = vs := by
  unfold imputeColumn List.enum
  exact enumFrom_map_some_extract (fillValue mat k (vs.map some)) vs 0

theorem zip_self_map {α β : Type} (h : α → β) (l : List α) :
    l.zip (l.map h) = l.map (fun x => (x, h x)) := by
  induction l with
  | nil => rfl
  | cons a t ih => rw [List.map_cons, List.zip_cons_cons, ih, List.map_cons]

/-- A fully observed numeric column survives the impute step unchanged. -/
theorem imputeRevert_nums (mat : List (List (Option ℚ))) (k : ℕ)
    (name : String) (xs : List (Option ℚ))
    (hsome : ∀ o ∈ xs, o.isSome = true) :
    Column.mk name
        (.nums ((imputeColumn mat k (knnEncodeCol (.nums xs))).map some))
      = ⟨name, .nums xs⟩ := by
  obtain ⟨vs, hvs⟩ := exists_map_some xs hsome
  rw [hvs]
  simp only [knnEncodeCol, imputeColumn_map_some]

/-- A fully observed string column survives encode-impute-decode
unchanged. -/
theorem imputeRevert_strs (mat : List (List (Option ℚ))) (k : ℕ)
    (name : String) (xs : List (Option String))
    (hsome : ∀ o ∈ xs, o.isSome = true) :
    Column.mk name
        (.strs ((imputeColumn mat k (knnEncodeCol (.strs xs))).map
          (catDecode (catCategories xs))))
      = ⟨name, .strs xs⟩ := by
  obtain ⟨ss, hss⟩ := exists_map_some xs hsome
  rw [hss]
  simp only [knnEncodeCol]
  have h1 : (ss.map some).map (fun o =>
        some ((catCode (catCategories (ss.map some)) o : ℤ) : ℚ))
      = (ss.map (fun s =>
          ((catCode (catCategories (ss.map some)) (some s) : ℤ) : ℚ))).map some := by
    rw [List.map_map, List.map_map]
    rfl
  rw [h1, imputeColumn_map_some, List.map_map]
  have h2 : ss.map ((catDecode (catCategories (ss.map some))) ∘
        (fun s => ((catCode (catCategories (ss.map some)) (some s) : ℤ) : ℚ)))
      = ss.map some :=
    List.map_congr_left (fun s hs =>
      catDecode_catCode (List.mem_map_of_mem some hs))
  rw [h2]

/-- C8: on a well-formed, non-empty frame with no missing values,
`knn_impute` succeeds and returns exactly the input columns: the same value
in every cell (numeric values idealised as `ℚ`, so the `int64 → float64`
dtype change of the real library is value-identity here) and the same
column order. -/
theorem claim_C8 (df : DataFrame) (k : ℕ) (hWF : df.WF) (hk : k ≠ 0)
    (hr : df.index ≠ []) (hc : df.cols ≠ [])
    (hmiss : df.hasMissing = false) :
    ∃ out, knn_impute df k = some out ∧ out.cols = df.cols := by
  have hcol : ∀ c ∈ df.cols, c.data.hasMissing = false := by
    intro c hcmem
    have h2 := List.any_eq_false.mp hmiss c hcmem
    simpa using h2
  have hguard : ¬ (k = 0 ∨ df.index.length = 0 ∨ df.cols.isEmpty = true ∨
      ((df.cols.map (fun c => knnEncodeCol c.data)).any
        (fun c => c.all (fun o => o.isNone))) = true) := by
    rintro (h | h | h | h)
    · exact hk h
    · exact hr (List.length_eq_zero.mp h)
    · exact hc (List.isEmpty_iff.mp h)
    · rw [List.any_eq_true] at h
      obtain ⟨enc, hin, hall⟩ := h
      rw [List.all_eq_true] at hall
      obtain ⟨c, hcin, hencc⟩ := List.mem_map.mp hin
      have hlen : c.data.length ≠ 0 := by
        rw [hWF c hcin]
        intro h0
        exact hr (List.length_eq_zero.mp h0)
      have hnomiss := hcol c hcin
      cases hdata : c.data with
      | nums xs =>
        rw [hdata] at hnomiss hlen
        cases xs with
        | nil => exact hlen rfl
        | cons o t =>
          have hmem : o ∈ enc := by
            rw [← hencc, hdata]
            exact List.mem_cons_self _ _
          have h3 := hall o hmem
          have h4 := all_isSome_of_any_isNone_false _ hnomiss o
            (List.mem_cons_self _ _)
          cases o with
          | none => simp at h4
          | some v => simp at h3
      | strs xs =>
        rw [hdata] at hlen
        cases xs with
        | nil => exact hlen rfl
        | cons o t =>
          have hmem : some ((catCode (catCategories (o :: t)) o : ℤ) : ℚ) ∈ enc := by
            rw [← hencc, hdata]
            simp only [knnEncodeCol, List.map_cons]
            exact List.mem_cons_self _ _
          have h3 := hall _ hmem
          simp at h3
  unfold knn_impute
  dsimp only
  rw [if_neg hguard]
  refine ⟨_, rfl, ?_⟩
  show ((df.cols.zip ((df.cols.map (fun c => knnEncodeCol c.data)).map
      (fun c => imputeColumn (df.cols.map (fun c => knnEncodeCol c.data)) k c))).map
      (fun pr =>
        match pr.1.data with
        | .nums _ => Column.mk pr.1.name (.nums (pr.2.map some))
        | .strs xs => Column.mk pr.1.name
            (.strs (pr.2.map (catDecode (catCategories xs)))))) = df.cols
  rw [List.map_map, zip_self_map, List.map_map]
  conv_rhs => rw [← List.map_id df.cols]
  apply List.map_congr_left
  intro c hcmem
  have hnomiss := hcol c hcmem
  obtain ⟨name, data⟩ := c
  cases data with
  | nums xs =>
    exact imputeRevert_nums _ k name xs
      (all_isSome_of_any_isNone_false xs hnomiss)
  | strs xs =>
    exact imputeRevert_strs _ k name xs
      (all_isSome_of_any_isNone_false xs hnomiss)

/-- Input frame for the C8 witness: no missing values, one string column
(unsorted, so the category round-trip is exercised) and one numeric
column. -/
def wFullIn : DataFrame :=
  ⟨[0, 1], [⟨"color", .strs [some "b", some "a"]⟩,
            ⟨"x", .nums [some 1, some 2]⟩]⟩

/-- Witness for C8 on the concrete frame above. -/
theorem claim_C8_witness :
    ∃ out, knn_impute wFullIn 5 = some out ∧ out.cols = wFullIn.cols :=
  claim_C8 wFullIn 5 (by unfold DataFrame.WF; decide) (by decide) (by decide)
    (by decide) (by decide)

/-! ### Claim C7: scaling and the feature/target split -/

theorem sum_map_center_div (xs : List ℚ) (mu s : ℚ) :
    (xs.map (fun x => (x - mu) / s)).sum = (xs.sum - xs.length * mu) / s := by
  induction xs with
  | nil => simp
  | cons a t ih =>
    rw [List.map_cons, List.sum_cons, ih, div_add_div_same, List.sum_cons,
      List.length_cons]
    congr 1
    push_cast
    ring

/-- The standardized column has exactly zero mean: the centering `x - μ`
makes the sum vanish whatever the (nonzero or zero) divisor is. -/
theorem meanQ_standardizeCol (xs : List ℚ) :
    meanQ (standardizeCol xs) = 0 := by
  unfold standardizeCol meanQ
  rw [List.length_map, sum_map_center_div]
  rcases eq_or_ne ((xs.length : ℚ)) 0 with h | h
  · rw [h, div_zero]
  · have h2 : (xs.length : ℚ) * (xs.sum / (xs.length : ℚ)) = xs.sum := by
      field_simp
    rw [h2, sub_self, zero_div, zero_div]

theorem find?_name_map_replace_ne (cols : List Column) (nm nm' : String)
    (d : ColData) (hne : nm ≠ nm') :
    (cols.map (fun c => if c.name = nm' then ⟨nm', d⟩ else c)).find?
        (fun c => c.name = nm)
      = cols.find? (fun c => c.name = nm) := by
  induction cols with
  | nil => rfl
  | cons c t ih =>
    rw [List.map_cons]
    by_cases hc : c.name = nm'
    · rw [if_pos hc, List.find?_cons_of_neg _ (by simp [Ne.symm hne]),
        List.find?_cons_of_neg _ (by
          simp only [decide_eq_true_eq]
          rw [hc]
          exact Ne.symm hne), ih]
    · rw [if_neg hc]
      by_cases hcnm : c.name = nm
      · rw [List.find?_cons_of_pos _ (by simp [hcnm]),
          List.find?_cons_of_pos _ (by simp [hcnm])]
      · rw [List.find?_cons_of_neg _ (by simp [hcnm]),
          List.find?_cons_of_neg _ (by simp [hcnm]), ih]

theorem find?_name_map_replace_self (cols : List Column) (nm : String)
    (d : ColData) (c : Column)
    (h : cols.find? (fun c => c.name = nm) = some c) :
    (cols.map (fun c => if c.name = nm then ⟨nm, d⟩ else c)).find?
        (fun c => c.name = nm)
      = some ⟨nm, d⟩ := by
  induction cols with
  | nil => simp at h
  | cons c0 t ih =>
    rw [List.map_cons]
    by_cases hc : c0.name = nm
    · rw [if_pos hc, List.find?_cons_of_pos _ (by simp)]
    · rw [if_neg hc, List.find?_cons_of_neg _ (by simp [hc])]
      rw [List.find?_cons_of_neg _ (by simp [hc])] at h
      exact ih h

theorem getCol?_setCol_ne (df : DataFrame) (nm nm' : String) (d : ColData)
    (hne : nm ≠ nm') :
    (df.setCol nm' d).getCol? nm = df.getCol? nm := by
  unfold DataFrame.setCol
  split
  · exact find?_name_map_replace_ne df.cols nm nm' d hne
  · show (DataFrame.mk df.index (df.cols ++ [⟨nm', d⟩])).getCol? nm
      = df.getCol? nm
    rw [getCol?_mk_append_sing _ _ _ _ (by simpa using Ne.symm hne)]

theorem getCol?_setCol_self (df : DataFrame) (nm : String) (d : ColData)
    (c : Column) (h : df.getCol? nm = some c) :
    (df.setCol nm d).getCol? nm = some ⟨nm, d⟩ := by
  unfold DataFrame.setCol
  rw [if_pos]
  · exact find?_name_map_replace_self df.cols nm d c h
  · refine List.any_eq_true.mpr ⟨c, List.mem_of_find?_eq_some h, ?_⟩
    have := List.find?_some h
    simpa using this

theorem scaleColumn_getCol?_ne (df df' : DataFrame) (nm nm' : String)
    (h : scaleColumn df nm' = some df') (hne : nm ≠ nm') :
    df'.getCol? nm = df.getCol? nm := by
  unfold scaleColumn at h
  obtain ⟨c, hc, h2⟩ := Option.bind_eq_some.mp h
  split at h2
  · simp at h2
  · obtain ⟨vals, hvals, rfl⟩ := Option.map_eq_some'.mp h2
    exact getCol?_setCol_ne df nm nm' _ hne

theorem scaleColumn_sets (df df' : DataFrame) (nm : String)
    (h : scaleColumn df nm = some df') :
    ∃ vals : List ℚ,
      df'.getCol? nm = some ⟨nm, .nums ((standardizeCol vals).map some)⟩ := by
  unfold scaleColumn at h
  obtain ⟨c, hc, h2⟩ := Option.bind_eq_some.mp h
  split at h2
  · simp at h2
  · obtain ⟨vals, hvals, rfl⟩ := Option.map_eq_some'.mp h2
    exact ⟨vals, getCol?_setCol_self df nm _ c hc⟩

theorem scaleColumns_preserve (nms : List String) :
    ∀ (df df' : DataFrame) (nm : String), nm ∉ nms →
      scaleColumns df nms = some df' → df'.getCol? nm = df.getCol? nm := by
  induction nms with
  | nil =>
    intro df df' nm _ h
    cases h
    rfl
  | cons nm' rest ih =>
    intro df df' nm hnm h
    obtain ⟨d, hd, hrest⟩ := Option.bind_eq_some.mp h
    rw [ih d df' nm (fun hmem => hnm (List.mem_cons_of_mem _ hmem)) hrest]
    exact scaleColumn_getCol?_ne df d nm nm' hd
      (fun he => hnm (he ▸ List.mem_cons_self _ _))

theorem scaleColumns_form (nms : List String) :
    ∀ (df df' : DataFrame) (nm : String), nm ∈ nms →
      scaleColumns df nms = some df' →
      ∃ vals : List ℚ,
        df'.getCol? nm = some ⟨nm, .nums ((standardizeCol vals).map some)⟩ := by
  induction nms with
  | nil =>
    intro df df' nm hnm _
    exact absurd hnm (List.not_mem_nil _)
  | cons nm' rest ih =>
    intro df df' nm hnm h
    obtain ⟨d, hd, hrest⟩ := Option.bind_eq_some.mp h
    by_cases hmem : nm ∈ rest
    · exact ih d df' nm hmem hrest
    · have hnm' : nm = nm' := by
        rcases List.mem_cons.mp hnm with h0 | h0
        · exact h0
        · exact absurd h0 hmem
      subst hnm'
      obtain ⟨vals, hvals⟩ := scaleColumn_sets df d nm hd
      exact ⟨vals, by rw [scaleColumns_preserve rest d df' nm hmem hrest, hvals]⟩

/-- C7: a successful training call `prepare_for_training(df, 'price',
scale_features=True)` returns a feature table `X` without the `price`
column, the target `y` equal to the `price` column of the processed (and
scaled) table, and every column of the fixed scaled set
`{brand, model, milage, int_ext_color, engine_transmission}` in `X` is a
standardized column, hence of exactly zero mean over the returned rows. -/
theorem claim_C7 (P : DataPreprocessor) (df X : DataFrame) (y : ColData)
    (h : prepare_for_training P df "price" true = some (X, y)) :
    "price" ∉ X.colNames ∧
    (∃ d0 d1 : DataFrame, preprocess_data P df true = some d0 ∧
      scaleColumns d0 scaledColumns = some d1 ∧
      (d1.getCol? "price").map Column.data = some y ∧
      X = ⟨d1.index, d1.cols.filter (fun c => ¬ c.name = "price")⟩) ∧
    (∀ nm ∈ scaledColumns, ∃ vals : List ℚ,
      X.getCol? nm = some ⟨nm, .nums ((standardizeCol vals).map some)⟩ ∧
      meanQ (standardizeCol vals) = 0) := by
  unfold prepare_for_training at h
  obtain ⟨d0, h0, h⟩ := Option.bind_eq_some.mp h
  rw [if_pos rfl] at h
  obtain ⟨d1, h1, h⟩ := Option.bind_eq_some.mp h
  obtain ⟨yc, hyc, heq⟩ := Option.map_eq_some'.mp h
  have hX : X = ⟨d1.index, d1.cols.filter (fun c => ¬ c.name = "price")⟩ :=
    (congrArg Prod.fst heq).symm
  have hy : y = yc.data := (congrArg Prod.snd heq).symm
  refine ⟨?_, ⟨d0, d1, h0, h1, by rw [hyc, hy]; rfl, hX⟩, ?_⟩
  · rw [hX]
    intro hmem
    obtain ⟨c, hcmem, hname⟩ := List.mem_map.mp hmem
    have h2 := (List.mem_filter.mp hcmem).2
    rw [hname] at h2
    simp at h2
  · intro nm hnm
    have hne : nm ≠ "price" := by
      simp only [scaledColumns, List.mem_cons, List.not_mem_nil,
        or_false] at hnm
      rcases hnm with rfl | rfl | rfl | rfl | rfl <;> decide
    obtain ⟨vals, hvals⟩ := scaleColumns_form scaledColumns d0 d1 nm hnm h1
    refine ⟨vals, ?_, meanQ_standardizeCol vals⟩
    rw [hX]
    show (d1.cols.filter (fun c => ¬ c.name = "price")).find?
        (fun c => c.name = nm) = _
    rw [find?_name_filter _ _ _ (fun c hc => by
      simp only [decide_eq_true_eq]
      rw [hc]
      exact hne)]
    exact hvals

/-- Input frame for the C7 witness: all-numeric training data, two rows,
chosen so every scaled column standardizes to exactly `[-1, 1]`. -/
def wTrainIn : DataFrame :=
  ⟨[3, 9],
   [⟨"brand", .nums [some 10, some 20]⟩,
    ⟨"model", .nums [some 1, some 2]⟩,
    ⟨"engine", .nums [some 2, some 3]⟩,
    ⟨"transmission", .nums [some 5, some 7]⟩,
    ⟨"int_col", .nums [some 1, some 2]⟩,
    ⟨"ext_col", .nums [some 3, some 5]⟩,
    ⟨"model_year", .nums [some 2000, some 2010]⟩,
    ⟨"milage", .nums [some 1, some 3]⟩,
    ⟨"price", .nums [some 100, some 200]⟩]⟩

/-- The feature table returned by `prepare_for_training` on `wTrainIn`. -/
def wTrainX : DataFrame :=
  ⟨[0, 1],
   [⟨"brand", .nums [some (-1), some 1]⟩,
    ⟨"model", .nums [some (-1), some 1]⟩,
    ⟨"milage", .nums [some (-1), some 1]⟩,
    ⟨"engine_transmission", .nums [some (-1), some 1]⟩,
    ⟨"int_ext_color", .nums [some (-1), some 1]⟩,
    ⟨"car_age", .nums [some 24, some 14]⟩]⟩

/-- The target series returned alongside `wTrainX`: the `price` column. -/
def wTrainY : ColData :=
  .nums [some 100, some 200]

/-- Witness for C7 on the concrete frames above. -/
theorem claim_C7_witness :
    "price" ∉ wTrainX.colNames ∧
    (∃ d0 d1 : DataFrame,
      preprocess_data ⟨fallbackEncoder⟩ wTrainIn true = some d0 ∧
      scaleColumns d0 scaledColumns = some d1 ∧
      (d1.getCol? "price").map Column.data = some wTrainY ∧
      wTrainX = ⟨d1.index, d1.cols.filter (fun c => ¬ c.name = "price")⟩) ∧
    (∀ nm ∈ scaledColumns, ∃ vals : List ℚ,
      wTrainX.getCol? nm = some ⟨nm, .nums ((standardizeCol vals).map some)⟩ ∧
      meanQ (standardizeCol vals) = 0) :=
  claim_C7 ⟨fallbackEncoder⟩ wTrainIn wTrainX wTrainY (by decide)

end CarPrice
